import Mathlib

set_option maxRecDepth 8000

/-!  A verification development for the schema-driven documentation pipeline
    (`development/docs/build_block_docs.py`) and the relative static crop step
    (`inference/core/workflows/core_steps/transformations/relative_static_crop.py`).
    Python dictionaries/strings are embedded as `PyVal`, fallible operations
    return `Except PyErr`.  -/

/-- Python JSON-ish values as they appear in block manifests. -/
inductive PyVal where
  | str (s : String)
  | bool (b : Bool)
  | dict (d : List (String × PyVal))
  | list (l : List PyVal)
deriving Repr

/-- Python exceptions that the script can raise. -/
inductive PyErr where
  | keyError (k : String)
  | typeError (m : String)
  | attributeError (m : String)
  | indexError (m : String)
  | exception (m : String)
deriving DecidableEq, Repr

abbrev PyRes (α : Type) := Except PyErr α

/-- First-match lookup in a dict (Python dict keys are unique, so this is faithful). -/
def dictGet? : List (String × PyVal) → String → Option PyVal
  | [], _ => none
  | (k', v) :: rest, k => if k' == k then some v else dictGet? rest k

/-- Whether `needle` is a leading segment of `hay` (character lists). -/
def charsStartWith : List Char → List Char → Bool
  | [], _ => true
  | _ :: _, [] => false
  | a :: as, b :: bs => a == b && charsStartWith as bs

/-- Substring test on character lists (Python `needle in haystack` for strings). -/
def hasSubChars (needle : List Char) : List Char → Bool
  | [] => needle.isEmpty
  | c :: rest => charsStartWith needle (c :: rest) || hasSubChars needle rest

/-- Python `needle in haystack` for strings. -/
def hasSub (needle haystack : String) : Bool :=
  hasSubChars needle.toList haystack.toList

/-- Python `v == "s"` where the right side is a string (cross-type `==` is `False`). -/
def isStrEq (v : PyVal) (s : String) : Bool :=
  match v with
  | .str t => t == s
  | _ => false

/-- Python `d[k]` subscript. -/
def pySub (v : PyVal) (k : String) : PyRes PyVal :=
  match v with
  | .dict d =>
    match dictGet? d k with
    | some x => .ok x
    | none => .error (.keyError k)
  | .str _ => .error (.typeError "string indices must be integers")
  | .list _ => .error (.typeError "list indices must be integers")
  | .bool _ => .error (.typeError "bool object is not subscriptable")

/-- Python `v.get(k)` (one-argument dict `get`). -/
def pyGetM (v : PyVal) (k : String) : PyRes (Option PyVal) :=
  match v with
  | .dict d => .ok (dictGet? d k)
  | _ => .error (.attributeError "get")

/-- Python `v.get(k, default)` (two-argument dict `get`). -/
def pyGetMD (v : PyVal) (k : String) (dflt : PyVal) : PyRes PyVal :=
  match v with
  | .dict d => .ok ((dictGet? d k).getD dflt)
  | _ => .error (.attributeError "get")

/-- Python `len(v)`. -/
def pyLen : PyVal → PyRes Nat
  | .dict d => .ok d.length
  | .list l => .ok l.length
  | .str s => .ok s.length
  | .bool _ => .error (.typeError "object of type bool has no len")

/-- Python `needle in v` for a string needle: key test on dicts, substring on
    strings, element equality on lists, `TypeError` on non-containers. -/
def pyIn (needle : String) : PyVal → PyRes Bool
  | .dict d => .ok (d.any (fun p => p.1 == needle))
  | .str s => .ok (hasSub needle s)
  | .list l => .ok (l.any (fun e => isStrEq e needle))
  | .bool _ => .error (.typeError "argument of type bool is not iterable")

/-- Python `s.split(sep)` for a one-character separator, on character lists
    (every segment is kept, so the result is never empty). -/
def splitChar (sep : Char) : List Char → List (List Char)
  | [] => [[]]
  | c :: rest =>
    if c == sep then [] :: splitChar sep rest
    else
      match splitChar sep rest with
      | h :: t => (c :: h) :: t
      | [] => [[c]]

/-- Python `v.split("/")[-1]` (raises `AttributeError` on non-strings). -/
def pySplitLast (v : PyVal) : PyRes String :=
  match v with
  | .str s => .ok (String.mk ((splitChar '/' s.toList).getLastD []))
  | _ => .error (.attributeError "split")

/-- Python `v.upper()` (raises `AttributeError` on non-strings). -/
def pyUpper (v : PyVal) : PyRes String :=
  match v with
  | .str s => .ok (String.mk (s.toList.map Char.toUpper))
  | _ => .error (.attributeError "upper")

/-- Coerce to a Python list for the `+` concatenation in the union branch. -/
def asListE : PyVal → PyRes (List PyVal)
  | .list l => .ok l
  | _ => .error (.typeError "can only concatenate list to list")

/-- Python `repr` for the values of this model (fuel bounds the recursion just
    as CPython's recursion limit does). -/
def pyRepr : Nat → PyVal → String
  | 0, _ => ""
  | fuel + 1, v =>
    match v with
    | .str s => "\x27" ++ s ++ "\x27"
    | .bool b => if b then "True" else "False"
    | .dict d =>
        "\x7b" ++
          String.intercalate ", "
            (d.map (fun p => "\x27" ++ p.1 ++ "\x27: " ++ pyRepr fuel p.2)) ++
          "\x7d"
    | .list l => "[" ++ String.intercalate ", " (l.map (pyRepr fuel)) ++ "]"

/-- Python `str(v)` as used by string formatting. -/
def pyStr (fuel : Nat) (v : PyVal) : String :=
  match v with
  | .str s => s
  | _ => pyRepr fuel v

/-- The table `TYPE_MAPPING` from build_block_docs.py lines 82-88. -/
def TYPE_MAPPING : List (String × String) :=
  [("number", "float"), ("integer", "int"), ("boolean", "bool"),
   ("string", "str"), ("null", "None")]

/-- Association lookup in `TYPE_MAPPING`. -/
def typeMappingGet (s : String) : Option String :=
  match TYPE_MAPPING.find? (fun p => p.1 == s) with
  | some p => some p.2
  | none => none

/-- Python `v in TYPE_MAPPING` for an arbitrary value (unhashable values raise). -/
def valInTypeMapping : PyVal → PyRes Bool
  | .str s => .ok (typeMappingGet s).isSome
  | .bool _ => .ok false
  | .dict _ => .error (.typeError "unhashable type: dict")
  | .list _ => .error (.typeError "unhashable type: list")

/-- Python `v in TYPE_MAPPING` where `v` is the result of a one-argument
    `dict.get` (so it may be `None`, which is simply not a key). -/
def optInTypeMapping : Option PyVal → PyRes Bool
  | none => .ok false
  | some v => valInTypeMapping v

/-- Python `TYPE_MAPPING[v]`. -/
def typeMappingSub : PyVal → PyRes String
  | .str s =>
    match typeMappingGet s with
    | some r => .ok r
    | none => .error (.keyError s)
  | .bool _ => .error (.keyError "True")
  | .dict _ => .error (.typeError "unhashable type: dict")
  | .list _ => .error (.typeError "unhashable type: list")

/-- Python `str(tuple-or-None)` for the result of the (unreachable in practice)
    nested-array recursion in `create_array_typing`. -/
def pyReprTupleOpt : Option (String × Bool) → String
  | none => "None"
  | some (s, b) => "(\x27" ++ s ++ "\x27, " ++ (if b then "True" else "False") ++ ")"

/-- The function `create_array_typing` from build_block_docs.py lines 142-158.  The source
    recurses without a bound; `fuel` plays the role of CPython's recursion
    limit.  Returning `none` models the function falling off its end and
    returning Python `None` (no `return` on the final path). -/
def create_array_typing : Nat → PyVal → PyRes (Option (String × Bool))
  | 0, _ => .error (.exception "maximum recursion depth exceeded")
  | fuel + 1, array_definition => do
    let u ← pyGetMD array_definition "uniqueItems" (.bool false)
    let high_level_type := match u with
      | .bool true => "Set"
      | _ => "List"
    let items ← pySub array_definition "items"
    let n ← pyLen items
    if n == 0 then
      pure (some (high_level_type ++ "[Any]", false))
    else do
      let hasType ← pyIn "type" items
      if hasType then do
        let ref_appears ← pyIn "reference" items
        let tv ← pySub items "type"
        let hasRef ← pyIn "$ref" tv
        if hasRef then do
          let r ← pySub tv "$ref"
          let s ← pySplitLast r
          pure (some (high_level_type ++ "[" ++ s ++ "]", ref_appears))
        else do
          let inMap ← valInTypeMapping tv
          if inMap then do
            let t_name ← typeMappingSub tv
            pure (some (high_level_type ++ "[" ++ t_name ++ "]", ref_appears))
          else if isStrEq tv "array" then do
            let inner ← create_array_typing fuel tv
            pure (some (high_level_type ++ "[" ++ pyReprTupleOpt inner ++ "]",
              ref_appears))
          else
            pure (some (high_level_type ++ "[unknown]", ref_appears))
      else
        pure none

/-- One element of `format_inputs`' result: (property name, display type,
    description value, references flag) — build_block_docs.py line 91's
    `Tuple[str, str, str, bool]` (the description is appended unconverted,
    so it is kept as a `PyVal`). -/
abbrev InputField := String × String × PyVal × Bool

/-- The branch-name resolution of the union loop body, build_block_docs.py
    lines 116-126.  `acc` is the running `ref_appears`, which the array branch
    updates with `or`. -/
def resolveBranchStep (fuel : Nat) (t : PyVal) (acc : Bool) : PyRes (String × Bool) := do
  let hasRef ← pyIn "$ref" t
  if hasRef then do
    let r ← pySub t "$ref"
    let s ← pySplitLast r
    pure (s, acc)
  else do
    let tv ← pySub t "type"
    let inMap ← valInTypeMapping tv
    if inMap then do
      let n ← typeMappingSub tv
      pure (n, acc)
    else if isStrEq tv "array" then do
      let inner ← create_array_typing fuel t
      match inner with
      | none => .error (.typeError "cannot unpack non-iterable NoneType object")
      | some (tn, rn) => pure (tn, acc || rn)
    else
      pure ("unknown", acc)

/-- The union loop of build_block_docs.py lines 115-126, over all branches. -/
def resolveBranches (fuel : Nat) : List PyVal → Bool → PyRes (List String × Bool)
  | [], acc => .ok ([], acc)
  | t :: rest, acc => do
    let (n, acc') ← resolveBranchStep fuel t acc
    let (ns, accF) ← resolveBranches fuel rest acc'
    .ok (n :: ns, accF)

/-- The filter `[e for e in x if "reference" not in e]`, build_block_docs.py line 111. -/
def filterNonRef : List PyVal → PyRes (List PyVal)
  | [] => .ok []
  | e :: rest => do
    let r ← pyIn "reference" e
    let rest' ← filterNonRef rest
    if r then pure rest' else pure (e :: rest')

/-- CPython materialises `set(result)` in an order that depends on string
    hashing; an enumeration function stands for that order.  A valid
    enumeration returns the deduplicated elements in some order. -/
def validEnum (enum : List String → List String) : Prop :=
  ∀ l : List String, List.Perm (enum l) l.dedup

/-- One possible set-iteration order (first occurrences, in insertion order). -/
def canonicalEnum (l : List String) : List String := l.dedup

/-- The per-property classification of `format_inputs`, build_block_docs.py
    lines 94-138.  `none` means the property is skipped (`continue` / falling
    through to the end of the loop body). -/
def processProperty (enum : List String → List String) (fuel : Nat)
    (property_name : String) (pd : PyVal) : PyRes (Option InputField) := do
  if property_name == "type" then
    pure none
  else do
    let t? ← pyGetM pd "type"
    let inMap ← optInTypeMapping t?
    if inMap then do
      let tv ← pySub pd "type"
      let result ← typeMappingSub tv
      let desc ← pyGetMD pd "description" (.str "not available")
      pure (some (property_name, result, desc, false))
    else do
      let hasItems ← pyIn "items" pd
      if hasItems then do
        let items ← pySub pd "items"
        let hasRefMarker ← pyIn "reference" items
        if hasRefMarker then
          pure none
        else do
          let r ← create_array_typing fuel items
          match r with
          | none => .error (.typeError "cannot unpack non-iterable NoneType object")
          | some (_t_name, _ref_appears) =>
            -- line 105 calls `property_definition.get("description",
            -- "not available", ref_appears)`: dict.get accepts at most two
            -- arguments, so this raises.
            .error (.typeError "get expected at most 2 arguments, got 3")
      else do
        let hasAny ← pyIn "anyOf" pd
        let hasOne ← pyIn "oneOf" pd
        let hasAll ← pyIn "allOf" pd
        if hasAny || hasOne || hasAll then do
          let a ← pyGetMD pd "anyOf" (.list [])
          let b ← pyGetMD pd "oneOf" (.list [])
          let c ← pyGetMD pd "allOf" (.list [])
          let la ← asListE a
          let lb ← asListE b
          let lc ← asListE c
          let x := la ++ lb ++ lc
          let primitive_types ← filterNonRef x
          if primitive_types.length == 0 then
            pure none
          else do
            let refInit : Bool := primitive_types.length != x.length
            let (names, ref_appears) ← resolveBranches fuel primitive_types refInit
            let setList := enum names
            let (high_level_type, remaining) :=
              if setList.contains "None" then ("Optional", setList.erase "None")
              else ("Union", setList)
            let base := String.intercalate ", " remaining
            let result_str :=
              if primitive_types.length > 1 then high_level_type ++ "[" ++ base ++ "]"
              else base
            let desc ← pyGetMD pd "description" (.str "not available")
            pure (some (property_name, result_str, desc, ref_appears))
        else do
          -- line 137: `if 'reference' in property_definition: continue` — both
          -- the taken and the untaken branch simply end this loop iteration.
          let _ ← pyIn "reference" pd
          pure none

/-- The property loop of `format_inputs` over `properties.items()`. -/
def formatProps (enum : List String → List String) (fuel : Nat) :
    List (String × PyVal) → PyRes (List InputField)
  | [] => .ok []
  | (n, pd) :: rest => do
    let f? ← processProperty enum fuel n pd
    let fs ← formatProps enum fuel rest
    match f? with
    | some f => .ok (f :: fs)
    | none => .ok fs

/-- The function `format_inputs` from build_block_docs.py lines 91-139. -/
def format_inputs (enum : List String → List String) (fuel : Nat)
    (block_definition : PyVal) : PyRes (List InputField) := do
  let properties ← pySub block_definition "properties"
  match properties with
  | .dict props => formatProps enum fuel props
  | _ => .error (.attributeError "items")

/-- The constant `USER_CONFIGURATION_HEADER`, build_block_docs.py lines 16-19. -/
def USER_CONFIGURATION_HEADER : List String :=
  ["| **Name** | **Type** | **Description** | **Parameterizable** |",
   "|:---------|:---------|:----------------|:--------------------|"]

/-- The constant `BLOCK_OUTPUTS_HEADER`, build_block_docs.py lines 21-24. -/
def BLOCK_OUTPUTS_HEADER : List String :=
  ["| **Name** | **Kind** | **Description** |",
   "|:---------|:---------|:----------------|"]

/-- Python `str(b)` for a boolean. -/
def pyBoolStr (b : Bool) : String := if b then "True" else "False"

/-- The function `format_block_inputs`, build_block_docs.py lines 161-167. -/
def format_block_inputs (enum : List String → List String) (fuel : Nat)
    (outputs_manifest : PyVal) : PyRes String := do
  let data ← format_inputs enum fuel outputs_manifest
  let rows := data.map (fun f =>
    "| `" ++ f.1 ++ "` | `" ++ f.2.1 ++ "` | " ++ pyStr fuel f.2.2.1 ++ ". | " ++
      pyBoolStr f.2.2.2 ++ " |")
  return String.intercalate "\n" (USER_CONFIGURATION_HEADER ++ rows)

/-- A kind descriptor of an output, from the externally supplied
    `OutputDefinition` entities. -/
structure Kind where
  name : String
  description : String
deriving DecidableEq, Repr

/-- An `OutputDefinition` as consumed by `format_block_outputs`. -/
structure OutputDefinition where
  name : String
  kind : List Kind
deriving DecidableEq, Repr

/-- The function `format_block_outputs`, build_block_docs.py lines 170-183. -/
def format_block_outputs (outputs_manifest : List OutputDefinition) : String :=
  let rows := outputs_manifest.map (fun output =>
    match output.kind with
    | [k] =>
      "| `" ++ output.name ++ "` | `" ++ k.name ++ "` | " ++ k.description ++ ". |"
    | ks =>
      let kind := String.intercalate ", " (ks.map Kind.name)
      let description := String.intercalate " or "
        (ks.map (fun k => k.description ++ " if `" ++ k.name ++ "`"))
      "| `" ++ output.name ++ "` | `Union[" ++ kind ++ "]` | " ++ description ++ ". |")
  String.intercalate "\n" (BLOCK_OUTPUTS_HEADER ++ rows)

/-- The function `get_class_name`, build_block_docs.py lines 186-187. -/
def get_class_name (fully_qualified_name : String) : String :=
  String.mk ((splitChar '.' fully_qualified_name.toList).getLastD [])

/-- First substitution pass of `camel_to_snake`:
    `re.sub('(.)([A-Z][a-z]+)', r'\\1_\\2', name)` (the dot does not match a
    newline; `[a-z]+` is greedy; matches do not overlap).  The fuel argument
    (instantiated with the list length, which bounds the number of scan steps)
    keeps the recursion structural. -/
def snakePass1F : Nat → List Char → List Char
  | 0, l => l
  | _, [] => []
  | _, [c] => [c]
  | _, [c, d] => [c, d]
  | fuel + 1, c :: d :: e :: rest =>
    if c != '\n' && d.isUpper && e.isLower then
      c :: '_' :: d :: (List.takeWhile Char.isLower (e :: rest) ++
        snakePass1F fuel (List.dropWhile Char.isLower (e :: rest)))
    else
      c :: snakePass1F fuel (d :: e :: rest)

/-- Second substitution pass of `camel_to_snake`:
    `re.sub('([a-z0-9])([A-Z])', r'\\1_\\2', name)`. -/
def snakePass2 : List Char → List Char
  | [] => []
  | [c] => [c]
  | c :: d :: rest =>
    if (c.isLower || c.isDigit) && d.isUpper then
      c :: '_' :: d :: snakePass2 rest
    else
      c :: snakePass2 (d :: rest)

/-- The function `camel_to_snake`, build_block_docs.py lines 67-70. -/
def camel_to_snake (name : String) : String :=
  String.mk ((snakePass2 (snakePass1F name.toList.length name.toList)).map
    Char.toLower)

/-- The tokens of `re.findall(r'[A-Z](?:[a-z]+|[A-Z]*(?=[A-Z]|$))', name)`:
    an uppercase letter followed by a greedy lowercase run, or an uppercase
    run whose last letter is left for the next match (lookahead).  The fuel
    argument (the list length bounds the number of scan steps) keeps the
    recursion structural. -/
def titleTokensF : Nat → List Char → List (List Char)
  | 0, _ => []
  | _, [] => []
  | _, [c] => if c.isUpper then [[c]] else []
  | fuel + 1, c :: d :: rest =>
    if c.isUpper then
      if d.isLower then
        (c :: List.takeWhile Char.isLower (d :: rest)) ::
          titleTokensF fuel (List.dropWhile Char.isLower (d :: rest))
      else
        let urun := List.takeWhile Char.isUpper (d :: rest)
        let rest' := List.dropWhile Char.isUpper (d :: rest)
        if urun = [] then
          -- the alternation fails (the lookahead wants an uppercase or the
          -- end): the scan advances one position
          titleTokensF fuel (d :: rest)
        else
          match rest' with
          | [] => [c :: urun]
          | _ :: _ =>
            (c :: urun.dropLast) :: titleTokensF fuel (urun.getLastD 'A' :: rest')
    else
      titleTokensF fuel (d :: rest)

/-- The function `block_class_name_to_block_title`, build_block_docs.py lines 73-79
    (`words[-1]` raises `IndexError` when the name has no tokens). -/
def block_class_name_to_block_title (name : String) : PyRes String :=
  let words := (titleTokensF name.toList.length name.toList).map String.mk
  match words with
  | [] => .error (.indexError "list index out of range")
  | _ :: _ =>
    let words := if words.getLast? == some "Block" then words.dropLast else words
    .ok (String.intercalate " " words)

/-- The sentinel token, build_block_docs.py line 14. -/
def AUTOGENERATED_BLOCKS_LIST_TOKEN : String := "<!--- AUTOGENERATED_BLOCKS_LIST -->"

/-- Does this line contain the sentinel token? -/
def lineHasToken (line : String) : Bool :=
  hasSub AUTOGENERATED_BLOCKS_LIST_TOKEN line

/-- The function `search_lines_with_token`, build_block_docs.py lines 59-64
    (specialised to the sentinel token; indexes in increasing order). -/
def search_lines_with_token : List String → List Nat
  | [] => []
  | line :: rest =>
    (if lineHasToken line then [0] else []) ++
      (search_lines_with_token rest).map (· + 1)

/-- The message of the `Exception` raised when the token count is not 2,
    build_block_docs.py lines 202-203. -/
def SENTINEL_ERROR_MESSAGE : String :=
  "Please inject two " ++ AUTOGENERATED_BLOCKS_LIST_TOKEN ++
    " tokens to signal start and end of autogenerated table."

/-- The template `BLOCK_CARD_TEMPLATE` (line 45) applied to its five data fields. -/
def cardLine (data_url data_name data_desc data_labels data_authors : String) : String :=
  "<p class=\"card block-card\" data-url=\"" ++ data_url ++
    "\" data-name=\"" ++ data_name ++
    "\" data-desc=\"" ++ data_desc ++
    "\" data-labels=\"" ++ data_labels ++
    "\" data-author=\"" ++ data_authors ++ "\"></p>"

/-- The template `BLOCK_DOCUMENTATION_TEMPLATE` (lines 26-43) applied to its four fields. -/
def docTemplate (class_name description block_inputs block_outputs : String) : String :=
  "\n# " ++ class_name ++ "\n\n" ++ description ++
    "\n\n## User Configuration\n\n" ++ block_inputs ++
    "\n\n## Input Bindings\n\n| **Name** | **Kind** | **Description** |\n|:---------|:---------|:----------------|\n\n## Output Bindings\n\n" ++
    block_outputs ++ "\n"

/-- A block descriptor as returned by `describe_available_blocks().blocks`. -/
structure Block where
  fully_qualified_class_name : String
  block_manifest : PyVal
  outputs_manifest : List OutputDefinition
deriving Repr

/-- A file produced by the pipeline: one markdown document per block, plus the
    rewritten index document (written line by line). -/
inductive FileWrite where
  | doc (filename : String) (content : String)
  | index (lines : List String)
deriving DecidableEq, Repr

/-- The Python recursion limit stands in for CPython's default of 1000. -/
def RECURSION_LIMIT : Nat := 1000

/-- The part of the per-block loop body up to and including rendering the
    documentation page (build_block_docs.py lines 210-226): everything that
    runs before the page is written to disk. -/
def blockPre (enum : List String → List String) (b : Block) :
    PyRes (String × String × String × PyVal × PyVal) := do
  let block_class_name := get_class_name b.fully_qualified_class_name
  let block_type ← pySub b.block_manifest "block_type"
  let short_description ← pyGetMD b.block_manifest "short_description" (.str "")
  let long_description ← pyGetMD b.block_manifest "long_description" (.str "")
  let documentation_file_name := camel_to_snake block_class_name ++ ".md"
  let block_inputs ← format_block_inputs enum RECURSION_LIMIT b.block_manifest
  let block_outputs := format_block_outputs b.outputs_manifest
  let documentation_content :=
    docTemplate block_class_name (pyStr RECURSION_LIMIT long_description)
      block_inputs block_outputs
  return (documentation_file_name, documentation_content, block_class_name,
    block_type, short_description)

/-- The card construction of the loop body (build_block_docs.py lines 230-236),
    which runs after the documentation page has been written. -/
def blockCard (block_class_name : String) (block_type short_description : PyVal) :
    PyRes String := do
  let data_name ← block_class_name_to_block_title block_class_name
  let data_labels ← pyUpper block_type
  return cardLine (camel_to_snake block_class_name) data_name
    (pyStr RECURSION_LIMIT short_description) data_labels ""

/-- The whole per-block loop (build_block_docs.py lines 209-237): the list of
    files written so far is kept even when a later block raises, because the
    script writes each page as it goes. -/
def runBlocks (enum : List String → List String) :
    List Block → List FileWrite × PyRes (List String)
  | [] => ([], .ok [])
  | b :: rest =>
    match blockPre enum b with
    | .error e => ([], .error e)
    | .ok (fname, content, cn, bt, short) =>
      let w := FileWrite.doc fname content
      match blockCard cn bt short with
      | .error e => ([w], .error e)
      | .ok card =>
        match runBlocks enum rest with
        | (ws, .error e) => (w :: ws, .error e)
        | (ws, .ok cards) => (w :: ws, .ok (card :: cards))

/-- The module-level pipeline of build_block_docs.py lines 195-240, from the
    token check to the final index rewrite.  It returns the files written (in
    order) and, when a step raises, the exception; the sentinel check happens
    before any write. -/
def pipeline (enum : List String → List String) (lines : List String)
    (blocks : List Block) : List FileWrite × Option PyErr :=
  match search_lines_with_token lines with
  | [start_index, end_index] =>
    match runBlocks enum blocks with
    | (ws, .error e) => (ws, some e)
    | (ws, .ok block_card_lines) =>
      let final := lines.take (start_index + 1) ++ block_card_lines ++
        lines.drop end_index
      (ws ++ [FileWrite.index final], none)
  | _ => ([], some (.exception SENTINEL_ERROR_MESSAGE))

/-- Python's `rstrip()` whitespace set. -/
def isPySpace (c : Char) : Bool :=
  c == ' ' || c == '\t' || c == '\n' || c == '\r' || c == '\x0b' || c == '\x0c'

/-- Python `line.rstrip()`. -/
def pyRstrip (s : String) : String :=
  String.mk ((s.toList.reverse.dropWhile isPySpace).reverse)

/-- The effect of `save_lines_to_file` (lines 53-56): the byte content of the written file,
    `"%s\n" % line` for each line. -/
def fileContent : List String → String
  | [] => ""
  | l :: rest => l ++ "\n" ++ fileContent rest

/-- Split a file's characters at newlines (every segment, including a final
    segment after the last newline). -/
def splitNl : List Char → List (List Char)
  | [] => [[]]
  | c :: rest =>
    if c == '\n' then [] :: splitNl rest
    else
      match splitNl rest with
      | h :: t => (c :: h) :: t
      | [] => [[c]]

/-- The function `read_lines_from_file` (lines 48-50) on a file's byte content: iterate the
    physical lines and rstrip each (iteration yields no trailing empty line
    when the content ends with a newline). -/
def read_lines_from_file (content : String) : List String :=
  let parts := splitNl content.toList
  let parts := if parts.getLast? == some [] then parts.dropLast else parts
  parts.map (fun cs => pyRstrip (String.mk cs))

/-- Python 3 `round()` to an integer: round half to even.  The float
    expressions of `take_static_crop` are modelled over `ℚ`. -/
def pyRound (q : ℚ) : ℤ :=
  let f := ⌊q⌋
  let r := q - f
  if r < 1/2 then f
  else if 1/2 < r then f + 1
  else if f % 2 = 0 then f else f + 1

/-- The decoded numpy image: only its shape matters to the crop arithmetic
    (`shape[0]` is the height, `shape[1]` the width); the pixel payload is an
    opaque tag. -/
structure NpImage where
  height : Nat
  width : Nat
  payload : Nat
deriving DecidableEq, Repr

/-- The slice `image[y_min:y_max, x_min:x_max]`: a symbolic numpy slice. -/
structure NpSlice where
  source : NpImage
  y0 : ℤ
  y1 : ℤ
  x0 : ℤ
  x1 : ℤ
deriving DecidableEq, Repr

/-- Keys of the dictionary returned by `take_static_crop`.  Modelled from the
    spec: the literal key strings live in `inference.core.workflows.constants`,
    which is outside the excerpt; only their identities matter. -/
inductive CropKey where
  | image_type
  | image_value
  | parent_id
  | origin_coordinates
deriving DecidableEq, Repr

/-- Modelled from the spec: `ImageType.NUMPY_OBJECT.value` comes from
    `inference.core.utils.image_utils`, outside the excerpt; it is some fixed
    string tag for numpy images. -/
def NUMPY_OBJECT_VALUE : String := "numpy_object"

/-- Values of the dictionary returned by `take_static_crop`; the origin
    coordinates are the nested dictionary with the left-top point and the
    origin size (kept as the `PyVal` that was passed in). -/
inductive CropVal where
  | str (s : String)
  | img (slice : NpSlice)
  | coords (left_top_x left_top_y : ℤ) (origin_size : PyVal)
deriving Repr

/-- The function `take_static_crop`, relative_static_crop.py lines 134-161. -/
def take_static_crop (image : NpImage) (x_center y_center width height : ℚ)
    (origin_size : PyVal) (image_parent : String) : List (CropKey × CropVal) :=
  let x_center' := pyRound ((image.width : ℚ) * x_center)
  let y_center' := pyRound ((image.height : ℚ) * y_center)
  let width' := pyRound ((image.width : ℚ) * width)
  let height' := pyRound ((image.height : ℚ) * height)
  let x_min := pyRound ((x_center' : ℚ) - (width' : ℚ) / 2)
  let y_min := pyRound ((y_center' : ℚ) - (height' : ℚ) / 2)
  let x_max := pyRound ((x_min : ℚ) + (width' : ℚ))
  let y_max := pyRound ((y_min : ℚ) + (height' : ℚ))
  let cropped_image : NpSlice := ⟨image, y_min, y_max, x_min, x_max⟩
  [(CropKey.image_type, CropVal.str NUMPY_OBJECT_VALUE),
   (CropKey.image_value, CropVal.img cropped_image),
   (CropKey.parent_id, CropVal.str image_parent),
   (CropKey.origin_coordinates, CropVal.coords x_min y_min origin_size)]

/-- Lookup in the crop result dictionary. -/
def cropGet? : List (CropKey × CropVal) → CropKey → Option CropVal
  | [], _ => none
  | (k', v) :: rest, k => if k' == k then some v else cropGet? rest k

/-- A well-formed block used to exercise the pipeline: one primitive property,
    one single-kind output. -/
def fooBlock : Block :=
  { fully_qualified_class_name := "a.b.FooBlock"
    block_manifest := .dict [("block_type", .str "transformation"),
      ("short_description", .str "does foo"),
      ("properties", .dict [("name", .dict [("type", .str "string"),
        ("description", .str "step name")])])]
    outputs_manifest := [⟨"crops", [⟨"image", "an image"⟩]⟩] }

/-- The card line the pipeline produces for `fooBlock`. -/
def fooCard : String :=
  "<p class=\"card block-card\" data-url=\"foo_block\" data-name=\"Foo\" data-desc=\"does foo\" data-labels=\"TRANSFORMATION\" data-author=\"\"></p>"

/-- A block whose manifest has a property with an `items` key (the classifier's
    broken third branch). -/
def badItemsBlock : Block :=
  { fully_qualified_class_name := "a.BarBlock"
    block_manifest := .dict [("block_type", .str "t"),
      ("properties", .dict [("p", .dict [("items", .dict [])])])]
    outputs_manifest := [] }

/-- A block whose short description contains the sentinel token. -/
def tokenDescBlock : Block :=
  { fully_qualified_class_name := "a.FooBlock"
    block_manifest := .dict [("block_type", .str "t"),
      ("short_description", .str ("x " ++ AUTOGENERATED_BLOCKS_LIST_TOKEN)),
      ("properties", .dict [])]
    outputs_manifest := [] }

/-- The card line the pipeline produces for `tokenDescBlock` (it contains the
    sentinel token inside `data-desc`). -/
def tokenDescCard : String :=
  "<p class=\"card block-card\" data-url=\"foo_block\" data-name=\"Foo\" data-desc=\"x <!--- AUTOGENERATED_BLOCKS_LIST -->\" data-labels=\"T\" data-author=\"\"></p>"

/-- The union schema `anyOf: [{type: "string"}, {type: "integer"}]` wrapped as
    a one-property manifest. -/
def unionStrIntManifest : PyVal :=
  .dict [("properties", .dict [("p", .dict [("anyOf",
    .list [.dict [("type", .str "string")], .dict [("type", .str "integer")]])])])]

/-- The union schema `anyOf: [{type: "string"}, {type: "null"}]` wrapped as a
    one-property manifest. -/
def unionStrNullManifest : PyVal :=
  .dict [("properties", .dict [("p", .dict [("anyOf",
    .list [.dict [("type", .str "string")], .dict [("type", .str "null")]])])])]

/-! ### Helper lemmas -/

theorem search_lines_append (xs ys : List String) :
    search_lines_with_token (xs ++ ys) =
      search_lines_with_token xs ++
        (search_lines_with_token ys).map (· + xs.length) := by
  induction xs with
  | nil => simp [search_lines_with_token]
  | cons l xs ih =>
    simp only [List.cons_append, search_lines_with_token, List.length_cons]
    rw [show xs.append ys = xs ++ ys from rfl, ih, List.map_append, List.map_map]
    have hf : ((fun x => x + 1) ∘ fun x => x + xs.length) =
        fun x => x + (xs.length + 1) := by
      funext i
      simp [Function.comp]
      omega
    rw [hf, List.append_assoc]

theorem search_lines_nil_of_no_token (xs : List String)
    (h : ∀ l ∈ xs, lineHasToken l = false) :
    search_lines_with_token xs = [] := by
  induction xs with
  | nil => rfl
  | cons l xs ih =>
    simp only [search_lines_with_token]
    rw [h l (by simp), ih (fun l' hl' => h l' (by simp [hl']))]
    simp

theorem search_lines_decomp (A B C : List String) (x y : String)
    (hA : ∀ l ∈ A, lineHasToken l = false)
    (hB : ∀ l ∈ B, lineHasToken l = false)
    (hC : ∀ l ∈ C, lineHasToken l = false)
    (hx : lineHasToken x = true) (hy : lineHasToken y = true) :
    search_lines_with_token (A ++ [x] ++ B ++ [y] ++ C) =
      [A.length, A.length + 1 + B.length] := by
  have hxs : search_lines_with_token [x] = [0] := by
    simp [search_lines_with_token, hx]
  have hys : search_lines_with_token [y] = [0] := by
    simp [search_lines_with_token, hy]
  rw [List.append_assoc, List.append_assoc, List.append_assoc]
  rw [search_lines_append, search_lines_nil_of_no_token A hA]
  rw [search_lines_append, hxs]
  rw [search_lines_append, search_lines_nil_of_no_token B hB]
  rw [search_lines_append, hys]
  rw [search_lines_nil_of_no_token C hC]
  simp
  omega

theorem pyBind_ok {α β : Type} (a : α) (f : α → PyRes β) :
    (Except.ok a : PyRes α) >>= f = f a := rfl

theorem pyBind_error {α β : Type} (e : PyErr) (f : α → PyRes β) :
    (Except.error e : PyRes α) >>= f = Except.error e := rfl

theorem pyPure {α : Type} (a : α) : (pure a : PyRes α) = Except.ok a := rfl

theorem runBlocks_cons_ok (enum : List String → List String) (b : Block)
    (rest : List Block) (ws : List FileWrite) (cards : List String)
    (h : runBlocks enum (b :: rest) = (ws, .ok cards)) :
    ∃ fname content cn bt short card ws' cards',
      blockPre enum b = .ok (fname, content, cn, bt, short) ∧
      blockCard cn bt short = .ok card ∧
      runBlocks enum rest = (ws', .ok cards') ∧
      ws = FileWrite.doc fname content :: ws' ∧ cards = card :: cards' := by
  simp only [runBlocks] at h
  split at h
  · exact absurd (congrArg Prod.snd h) (by simp)
  · split at h
    · exact absurd (congrArg Prod.snd h) (by simp)
    · split at h
      · exact absurd (congrArg Prod.snd h) (by simp)
      · rename_i x1 fname content cn bt short hpre x2 card hcard x3 ws' cards' hrest
        have h1 := congrArg Prod.fst h
        have h2 := congrArg Prod.snd h
        simp at h1 h2
        exact ⟨fname, content, cn, bt, short, card, ws', cards',
          hpre, hcard, hrest, h1.symm, h2.symm⟩

theorem blockCard_ok_shape (cn : String) (bt short : PyVal) (card : String)
    (h : blockCard cn bt short = .ok card) : ∃ s, card = s ++ "\"></p>" := by
  simp only [blockCard] at h
  cases ht : block_class_name_to_block_title cn with
  | error e => rw [ht, pyBind_error] at h; exact absurd h (by simp)
  | ok title =>
    rw [ht, pyBind_ok] at h
    cases hu : pyUpper bt with
    | error e => rw [hu, pyBind_error] at h; exact absurd h (by simp)
    | ok lbl =>
      rw [hu, pyBind_ok, pyPure] at h
      have hcl : card = cardLine (camel_to_snake cn) title
          (pyStr RECURSION_LIMIT short) lbl "" := by
        cases h
        rfl
      exact ⟨"<p class=\"card block-card\" data-url=\"" ++ camel_to_snake cn ++
        "\" data-name=\"" ++ title ++ "\" data-desc=\"" ++
        pyStr RECURSION_LIMIT short ++ "\" data-labels=\"" ++ lbl ++
        "\" data-author=\"" ++ "", by rw [hcl]; rfl⟩

theorem runBlocks_ok_length (enum : List String → List String) :
    ∀ (bs : List Block) (ws : List FileWrite) (cards : List String),
      runBlocks enum bs = (ws, .ok cards) → cards.length = bs.length := by
  intro bs
  induction bs with
  | nil =>
    intro ws cards h
    simp [runBlocks] at h
    simp [h.2]
  | cons b rest ih =>
    intro ws cards h
    obtain ⟨_, _, _, _, _, card, ws', cards', _, _, hrest, _, hcards⟩ :=
      runBlocks_cons_ok enum b rest ws cards h
    subst hcards
    simp [ih ws' cards' hrest]

theorem runBlocks_ok_card_shape (enum : List String → List String) :
    ∀ (bs : List Block) (ws : List FileWrite) (cards : List String),
      runBlocks enum bs = (ws, .ok cards) →
      ∀ c ∈ cards, ∃ s, c = s ++ "\"></p>" := by
  intro bs
  induction bs with
  | nil =>
    intro ws cards h
    simp [runBlocks] at h
    simp [h.2]
  | cons b rest ih =>
    intro ws cards h
    obtain ⟨_, _, cn, bt, short, card, ws', cards', _, hcard, hrest, _, hcards⟩ :=
      runBlocks_cons_ok enum b rest ws cards h
    subst hcards
    intro c hc
    rcases List.mem_cons.mp hc with hc1 | hc2
    · exact hc1 ▸ blockCard_ok_shape cn bt short card hcard
    · exact ih ws' cards' hrest c hc2

theorem pyRstrip_card_end (s : String) :
    pyRstrip (s ++ "\"></p>") = s ++ "\"></p>" := by
  have hd : (s ++ "\"></p>").data = s.data ++ ['"', '>', '<', '/', 'p', '>'] := by
    rw [String.data_append]
  have h1 : (s ++ "\"></p>").toList.reverse =
      '>' :: ('p' :: '/' :: '<' :: '>' :: '"' :: s.data.reverse) := by
    rw [show (s ++ "\"></p>").toList = (s ++ "\"></p>").data from rfl, hd,
      List.reverse_append]
    rfl
  unfold pyRstrip
  rw [h1, List.dropWhile_cons]
  rw [show isPySpace '>' = false from rfl]
  simp only [Bool.false_eq_true, if_false]
  rw [← h1, List.reverse_reverse]
  rfl

theorem splitNl_append (xs rest : List Char) (h : '\n' ∉ xs) :
    splitNl (xs ++ '\n' :: rest) = xs :: splitNl rest := by
  induction xs with
  | nil => simp [splitNl]
  | cons c xs ih =>
    simp only [List.mem_cons, not_or] at h
    have hc : (c == '\n') = false := by
      rcases h with ⟨h1, _⟩
      exact beq_eq_false_iff_ne.mpr (fun hcc => h1 hcc.symm)
    simp only [List.cons_append, splitNl, hc]
    rw [show xs.append ('\n' :: rest) = xs ++ '\n' :: rest from rfl]
    rw [ih (by simp [h.2])]
    simp

theorem fileContent_data (L : List String) (hnl : ∀ l ∈ L, '\n' ∉ l.data) :
    splitNl (fileContent L).data = L.map String.data ++ [[]] := by
  induction L with
  | nil => rfl
  | cons l rest ih =>
    have hd : (fileContent (l :: rest)).data =
        l.data ++ '\n' :: (fileContent rest).data := by
      show (l ++ "\n" ++ fileContent rest).data = _
      rw [String.data_append, String.data_append, List.append_assoc]
      rfl
    rw [hd, splitNl_append l.data _ (hnl l (by simp))]
    rw [ih (fun l' hl' => hnl l' (by simp [hl']))]
    simp

theorem read_lines_roundtrip (L : List String)
    (hnl : ∀ l ∈ L, '\n' ∉ l.data) (hrs : ∀ l ∈ L, pyRstrip l = l) :
    read_lines_from_file (fileContent L) = L := by
  unfold read_lines_from_file
  rw [show (fileContent L).toList = (fileContent L).data from rfl]
  rw [fileContent_data L hnl]
  simp only [List.getLast?_concat, beq_self_eq_true, if_true,
    List.dropLast_concat, List.map_map]
  have hmap : ∀ l ∈ L, ((fun cs => pyRstrip (String.mk cs)) ∘ String.data) l = id l := by
    intro l hl
    simp only [Function.comp_apply, id]
    rw [show String.mk l.data = l from rfl]
    exact hrs l hl
  rw [List.map_congr_left hmap, List.map_id]

theorem pipeline_eq_of_search (enum : List String → List String)
    (lines : List String) (blocks : List Block) (s e : Nat)
    (hs : search_lines_with_token lines = [s, e]) :
    pipeline enum lines blocks =
      match runBlocks enum blocks with
      | (ws, .error err) => (ws, some err)
      | (ws, .ok cards) =>
        (ws ++ [FileWrite.index (lines.take (s + 1) ++ cards ++ lines.drop e)],
          none) := by
  unfold pipeline
  rw [hs]

theorem pipeline_splice (enum : List String → List String)
    (A B C : List String) (x y : String) (blocks : List Block)
    (ws : List FileWrite) (cards : List String)
    (hA : ∀ l ∈ A, lineHasToken l = false)
    (hB : ∀ l ∈ B, lineHasToken l = false)
    (hC : ∀ l ∈ C, lineHasToken l = false)
    (hx : lineHasToken x = true) (hy : lineHasToken y = true)
    (hrun : runBlocks enum blocks = (ws, .ok cards)) :
    pipeline enum (A ++ [x] ++ B ++ [y] ++ C) blocks =
      (ws ++ [FileWrite.index (A ++ [x] ++ cards ++ [y] ++ C)], none) := by
  have hs := search_lines_decomp A B C x y hA hB hC hx hy
  rw [pipeline_eq_of_search enum _ blocks _ _ hs, hrun]
  have htake : (A ++ [x] ++ B ++ [y] ++ C).take (A.length + 1) = A ++ [x] := by
    rw [List.append_assoc (A ++ [x]) B, List.append_assoc (A ++ [x])]
    exact List.take_left' (by simp)
  have hdrop : (A ++ [x] ++ B ++ [y] ++ C).drop (A.length + 1 + B.length) =
      [y] ++ C := by
    rw [List.append_assoc (A ++ [x] ++ B)]
    exact List.drop_left' (by simp; omega)
  rw [htake, hdrop]
  show (ws ++ [FileWrite.index (A ++ [x] ++ cards ++ ([y] ++ C))], none) = _
  rw [← List.append_assoc]

/-! ### Claim theorems -/

/-- C4: whenever the number of index lines containing the sentinel token is not
    exactly 2, the pipeline aborts with the message asking the operator to
    inject both markers, and writes no file at all (neither per-block documents
    nor the index document). -/
theorem C4_sentinel_count_aborts (enum : List String → List String)
    (lines : List String) (blocks : List Block)
    (h : (search_lines_with_token lines).length ≠ 2) :
    pipeline enum lines blocks = ([], some (.exception SENTINEL_ERROR_MESSAGE)) := by
  unfold pipeline
  rcases hls : search_lines_with_token lines with _ | ⟨a, _ | ⟨b, _ | ⟨c, t⟩⟩⟩
  · rfl
  · rfl
  · exact absurd (by rw [hls]; rfl) h
  · rfl

/-- Witness for C4: an index document with a single sentinel line (token count
    1) makes the pipeline abort with the marker message and no writes. -/
theorem C4_witness :
    pipeline canonicalEnum [AUTOGENERATED_BLOCKS_LIST_TOKEN] [fooBlock] =
      ([], some (.exception SENTINEL_ERROR_MESSAGE)) :=
  C4_sentinel_count_aborts canonicalEnum [AUTOGENERATED_BLOCKS_LIST_TOKEN]
    [fooBlock] (by decide)

/-- C2 (code bug): for a property schema with an `items` key whose items
    sub-schema has no reference marker, `format_inputs` raises instead of
    emitting a field: `create_array_typing` is handed the items sub-schema but
    itself subscripts `["items"]` again, so it raises `KeyError('items')` here
    (and any input surviving that hits the three-argument `dict.get`, a
    `TypeError`). -/
theorem C2_items_branch_raises :
    format_inputs canonicalEnum RECURSION_LIMIT
      (.dict [("properties", .dict [("p", .dict [("items",
        .dict [("type", .str "string")])])])]) = .error (.keyError "items") := by
  rfl

/-- C10: `take_static_crop` returns a dictionary with exactly the image-type,
    image-value, parent-id and origin-coordinates keys; the parent-id value is
    the `image_parent` argument unchanged; the origin coordinates are
    `x_min = round(round(w*x_center) - round(w*width)/2)` and
    `y_min = round(round(h*y_center) - round(h*height)/2)`, and they equal the
    bounds of the slice stored under the image-value key. -/
theorem C10_take_static_crop_shape (image : NpImage)
    (x_center y_center width height : ℚ) (origin_size : PyVal)
    (image_parent : String) :
    (take_static_crop image x_center y_center width height origin_size
        image_parent).map Prod.fst =
      [CropKey.image_type, CropKey.image_value, CropKey.parent_id,
        CropKey.origin_coordinates] ∧
    cropGet? (take_static_crop image x_center y_center width height origin_size
        image_parent) CropKey.parent_id = some (CropVal.str image_parent) ∧
    cropGet? (take_static_crop image x_center y_center width height origin_size
        image_parent) CropKey.origin_coordinates =
      some (CropVal.coords
        (pyRound ((pyRound ((image.width : ℚ) * x_center) : ℚ) -
          (pyRound ((image.width : ℚ) * width) : ℚ) / 2))
        (pyRound ((pyRound ((image.height : ℚ) * y_center) : ℚ) -
          (pyRound ((image.height : ℚ) * height) : ℚ) / 2))
        origin_size) ∧
    cropGet? (take_static_crop image x_center y_center width height origin_size
        image_parent) CropKey.image_value =
      some (CropVal.img
        { source := image
          y0 := pyRound ((pyRound ((image.height : ℚ) * y_center) : ℚ) -
            (pyRound ((image.height : ℚ) * height) : ℚ) / 2)
          y1 := pyRound (((pyRound ((pyRound ((image.height : ℚ) * y_center) : ℚ) -
            (pyRound ((image.height : ℚ) * height) : ℚ) / 2)) : ℚ) +
            (pyRound ((image.height : ℚ) * height) : ℚ))
          x0 := pyRound ((pyRound ((image.width : ℚ) * x_center) : ℚ) -
            (pyRound ((image.width : ℚ) * width) : ℚ) / 2)
          x1 := pyRound (((pyRound ((pyRound ((image.width : ℚ) * x_center) : ℚ) -
            (pyRound ((image.width : ℚ) * width) : ℚ) / 2)) : ℚ) +
            (pyRound ((image.width : ℚ) * width) : ℚ)) }) := by
  refine ⟨rfl, rfl, rfl, rfl⟩

/-- C9: for an array schema whose `items` value is a non-empty mapping without
    a `type` key, `create_array_typing` falls off its end and returns Python
    `None` instead of a pair; the union-branch caller that unpacks the result
    then fails with a `TypeError`. -/
theorem C9_create_array_typing_none (fuel : Nat)
    (d td im : List (String × PyVal)) (acc : Bool)
    (hd : dictGet? d "items" = some (.dict im))
    (hne : im.length ≠ 0)
    (hnotype : ∀ p ∈ im, ¬p.1 = "type")
    (hnoref : ∀ p ∈ td, ¬p.1 = "$ref")
    (htype : dictGet? td "type" = some (.str "array"))
    (htd : dictGet? td "items" = some (.dict im)) :
    create_array_typing (fuel + 1) (.dict d) = .ok none ∧
    resolveBranchStep (fuel + 1) (.dict td) acc =
      .error (.typeError "cannot unpack non-iterable NoneType object") := by
  have hlen : (im.length == 0) = false := beq_eq_false_iff_ne.mpr hne
  have hany : (im.any (fun p => p.1 == "type")) = false := by
    rw [List.any_eq_false]
    intro p hp
    simp [hnotype p hp]
  have hmain : ∀ d' : List (String × PyVal), dictGet? d' "items" = some (.dict im) →
      create_array_typing (fuel + 1) (.dict d') = .ok none := by
    intro d' hd'
    simp only [create_array_typing, pyGetMD, pySub, hd', pyLen, pyIn, pyBind_ok,
      hlen, hany, Bool.false_eq_true, if_false, pyPure]
  refine ⟨hmain d hd, ?_⟩
  have hanyref : (td.any (fun p => p.1 == "$ref")) = false := by
    rw [List.any_eq_false]
    intro p hp
    simp [hnoref p hp]
  simp only [resolveBranchStep, pyIn, hanyref, pySub, htype, pyBind_ok,
    Bool.false_eq_true, if_false, valInTypeMapping, isStrEq]
  rw [hmain td htd]
  simp only [typeMappingGet, TYPE_MAPPING]
  rfl

/-- Witness for C9: the array schema `{items: {foo: true}}` makes
    `create_array_typing` return `None`, and the union branch
    `{type: "array", items: {foo: true}}` makes the caller's unpacking raise. -/
theorem C9_witness :
    create_array_typing 1 (.dict [("items", .dict [("foo", .bool true)])]) =
      .ok none ∧
    resolveBranchStep 1
      (.dict [("type", .str "array"), ("items", .dict [("foo", .bool true)])])
      false = .error (.typeError "cannot unpack non-iterable NoneType object") :=
  C9_create_array_typing_none 0 [("items", .dict [("foo", .bool true)])]
    [("type", .str "array"), ("items", .dict [("foo", .bool true)])]
    [("foo", .bool true)] false rfl (by decide) (by decide) (by decide) rfl rfl

/-- C8: a property (not named "type") whose `type` is one of the five mapped
    primitives is classified with exactly the mapped display name,
    references flag `false`, and the schema's description (or the literal
    fallback "not available"); `format_inputs` emits that field. -/
theorem C8_primitive_mapping (enum : List String → List String) (fuel : Nat)
    (name : String) (d : List (String × PyVal)) (p disp : String)
    (hname : ¬name = "type")
    (htype : dictGet? d "type" = some (.str p))
    (hp : typeMappingGet p = some disp) :
    processProperty enum fuel name (.dict d) =
      .ok (some (name, disp,
        (dictGet? d "description").getD (.str "not available"), false)) ∧
    format_inputs enum fuel (.dict [("properties", .dict [(name, .dict d)])]) =
      .ok [(name, disp,
        (dictGet? d "description").getD (.str "not available"), false)] := by
  have hnb : (name == "type") = false := beq_eq_false_iff_ne.mpr hname
  have h1 : processProperty enum fuel name (.dict d) =
      .ok (some (name, disp,
        (dictGet? d "description").getD (.str "not available"), false)) := by
    simp only [processProperty, hnb, Bool.false_eq_true, if_false, pyGetM,
      htype, pyBind_ok, optInTypeMapping, valInTypeMapping, hp, Option.isSome,
      if_true, pySub, typeMappingSub, pyGetMD, pyPure]
  refine ⟨h1, ?_⟩
  simp only [format_inputs, pySub, dictGet?, beq_self_eq_true, if_true,
    pyBind_ok, formatProps, h1]

/-- Witness for C8: a `number` property maps to display type `float` with its
    own description and references flag `false`. -/
theorem C8_witness :
    processProperty canonicalEnum 1000 "conf"
      (.dict [("type", .str "number"), ("description", .str "a confidence")]) =
      .ok (some ("conf", "float", .str "a confidence", false)) ∧
    format_inputs canonicalEnum 1000
      (.dict [("properties", .dict [("conf",
        .dict [("type", .str "number"), ("description", .str "a confidence")])])]) =
      .ok [("conf", "float", .str "a confidence", false)] :=
  C8_primitive_mapping canonicalEnum 1000 "conf"
    [("type", .str "number"), ("description", .str "a confidence")]
    "number" "float" (by decide) rfl rfl

/-- Proof that `canonicalEnum` is one valid set-iteration order. -/
theorem canonicalEnum_valid : validEnum canonicalEnum :=
  fun _ => List.Perm.refl _

/-- Counterexample for C1: for `anyOf: [{type: "string"}, {type: "null"}]`
    exactly one name ("str") remains after deduplication and removal of
    "None", yet the code wraps it as `Optional[str]` (references_block is
    false), because the unwrap test uses the branch count before
    deduplication. -/
theorem C1_counterexample :
    format_inputs canonicalEnum RECURSION_LIMIT unionStrNullManifest =
      .ok [("p", "Optional[str]", .str "not available", false)] ∧
    ("Optional[str]" : String) ≠ "str" :=
  ⟨rfl, by decide⟩

/-- C1 (amended): the single resolved name is produced unwrapped exactly when
    the union has exactly one non-reference branch before deduplication; the
    references flag is true iff reference branches exist or the branch nests a
    reference. -/
theorem C1_single_branch_unwrapped (enum : List String → List String)
    (hv : validEnum enum) (fuel : Nat) (name : String) (xs : List PyVal)
    (t : PyVal) (n : String) (rf : Bool)
    (hname : ¬name = "type")
    (hf : filterNonRef xs = .ok [t])
    (hr : resolveBranchStep fuel t ((1 : Nat) != xs.length) = .ok (n, rf))
    (hn : n ≠ "None") :
    processProperty enum fuel name (.dict [("anyOf", .list xs)]) =
      .ok (some (name, n, .str "not available", rf)) := by
  have hnb : (name == "type") = false := beq_eq_false_iff_ne.mpr hname
  have henum : enum [n] = [n] := by
    have h2 := hv [n]
    rw [show ([n] : List String).dedup = [n] by simp] at h2
    exact List.perm_singleton.mp h2
  have hbase : String.intercalate ", " [n] = n := by
    simp [String.intercalate, String.intercalate.go]
  simp [processProperty, hnb, pyGetM, dictGet?, pyBind_ok, optInTypeMapping,
    pyIn, pyGetMD, asListE, hf, resolveBranches, hr, pyPure, henum, hbase,
    List.contains]
  rw [if_neg (fun h => hn h.symm)]
  exact hbase

/-- Witness for C1 (amended): a union with one string branch and one reference
    branch renders as the unwrapped name `str` with references flag true. -/
theorem C1_witness :
    processProperty canonicalEnum 1000 "p"
      (.dict [("anyOf", .list [.dict [("type", .str "string")],
        .dict [("reference", .bool true)]])]) =
      .ok (some ("p", "str", .str "not available", true)) :=
  C1_single_branch_unwrapped canonicalEnum canonicalEnum_valid 1000 "p"
    [.dict [("type", .str "string")], .dict [("reference", .bool true)]]
    (.dict [("type", .str "string")]) "str" true (by decide) rfl rfl (by decide)

theorem perm_pair_eq (a b : String) (hab : a ≠ b) (l : List String)
    (h : l.Perm [a, b]) : l = [a, b] ∨ l = [b, a] := by
  have hlen := h.length_eq
  rcases l with _ | ⟨x, _ | ⟨y, _ | ⟨z, t⟩⟩⟩ <;> simp at hlen
  have hx : x ∈ [a, b] := h.mem_iff.mp (by simp)
  have hy : y ∈ [a, b] := h.mem_iff.mp (by simp)
  have hnd : List.Nodup [x, y] := h.nodup_iff.mpr (by simp [hab])
  have hxy : x ≠ y := by simp at hnd; exact hnd
  simp at hx hy
  rcases hx with rfl | rfl <;> rcases hy with rfl | rfl <;> simp_all

/-- Counterexample for C3: under one achievable set-iteration order the union
    `anyOf: [{type: "string"}, {type: "integer"}]` renders as
    `"Union[str, int]"`, not the claimed fixed sorted `"Union[int, str]"` (the
    code never sorts the deduplicated names). -/
theorem C3_counterexample :
    format_inputs canonicalEnum RECURSION_LIMIT unionStrIntManifest =
      .ok [("p", "Union[str, int]", .str "not available", false)] ∧
    ("Union[str, int]" : String) ≠ "Union[int, str]" :=
  ⟨rfl, by decide⟩

/-- C3 (amended): for `anyOf: [{type: "string"}, {type: "integer"}]` the
    display type is `Union[...]` of `str` and `int` in whatever order the set
    iteration yields — `"Union[str, int]"` or `"Union[int, str]"` — with
    references flag false; no sorted order is guaranteed. -/
theorem C3_union_str_int (enum : List String → List String)
    (hv : validEnum enum) (fuel : Nat) :
    format_inputs enum fuel unionStrIntManifest =
      .ok [("p", "Union[str, int]", .str "not available", false)] ∨
    format_inputs enum fuel unionStrIntManifest =
      .ok [("p", "Union[int, str]", .str "not available", false)] := by
  have h2 := hv ["str", "int"]
  rw [show (["str", "int"] : List String).dedup = ["str", "int"] by decide] at h2
  rcases perm_pair_eq "str" "int" (by decide) _ h2 with h | h
  · left
    simp [format_inputs, formatProps, processProperty, unionStrIntManifest,
      pySub, dictGet?, pyGetM, optInTypeMapping, pyIn, pyGetMD, asListE,
      filterNonRef, resolveBranches, resolveBranchStep, valInTypeMapping,
      typeMappingGet, TYPE_MAPPING, typeMappingSub, isStrEq, pyBind_ok, pyPure,
      h, List.contains, String.intercalate, String.intercalate.go]
  · right
    simp [format_inputs, formatProps, processProperty, unionStrIntManifest,
      pySub, dictGet?, pyGetM, optInTypeMapping, pyIn, pyGetMD, asListE,
      filterNonRef, resolveBranches, resolveBranchStep, valInTypeMapping,
      typeMappingGet, TYPE_MAPPING, typeMappingSub, isStrEq, pyBind_ok, pyPure,
      h, List.contains, String.intercalate, String.intercalate.go]

/-- Witness for C3 (amended): the canonical set order yields one of the two
    `Union[...]` renderings. -/
theorem C3_witness :
    format_inputs canonicalEnum RECURSION_LIMIT unionStrIntManifest =
      .ok [("p", "Union[str, int]", .str "not available", false)] ∨
    format_inputs canonicalEnum RECURSION_LIMIT unionStrIntManifest =
      .ok [("p", "Union[int, str]", .str "not available", false)] :=
  C3_union_str_int canonicalEnum canonicalEnum_valid RECURSION_LIMIT

theorem dictGet?_any (d : List (String × PyVal)) (k : String) (v : PyVal)
    (h : dictGet? d k = some v) : (d.any fun p => p.1 == k) = true := by
  induction d with
  | nil => simp [dictGet?] at h
  | cons p rest ih =>
    rcases p with ⟨k', v'⟩
    by_cases hk : (k' == k) = true
    · simp [hk]
    · simp only [dictGet?] at h
      rw [if_neg hk] at h
      simp [List.any_cons, hk, ih h]

/-- Counterexample for C7: a union branch with an unexpected nested structure
    (no `$ref` and no `type` key at all) makes the union formatter raise
    `KeyError('type')` instead of rendering `"unknown"`. -/
theorem C7_counterexample :
    format_inputs canonicalEnum RECURSION_LIMIT
      (.dict [("properties", .dict [("p",
        .dict [("anyOf", .list [.dict []])])])]) =
      .error (.keyError "type") := by
  rfl

/-- C7 (amended): a branch whose `type` value is present but an unknown
    primitive name (not in the table, not "array") renders as the literal
    string "unknown" in the union formatter, and as `List[unknown]` in the
    array formatter, without raising; branches that lack the `type` key
    entirely raise instead. -/
theorem C7_unknown_name_degrades (fuel : Nat) (s : String)
    (td im : List (String × PyVal)) (acc : Bool)
    (hs1 : typeMappingGet s = none) (hs2 : s ≠ "array")
    (hnoref : ∀ p ∈ td, ¬p.1 = "$ref")
    (htype : dictGet? td "type" = some (.str s))
    (hrefs : ¬hasSub "$ref" s)
    (him : dictGet? im "type" = some (.str s)) :
    resolveBranchStep fuel (.dict td) acc = .ok ("unknown", acc) ∧
    create_array_typing (fuel + 1) (.dict [("items", .dict im)]) =
      .ok (some ("List[unknown]", im.any (fun p => p.1 == "reference"))) := by
  have hanyref : (td.any fun p => p.1 == "$ref") = false := by
    rw [List.any_eq_false]
    intro p hp
    simp [hnoref p hp]
  have hsb : (s == "array") = false := beq_eq_false_iff_ne.mpr hs2
  constructor
  · simp [resolveBranchStep, pyIn, hanyref, pySub, htype, pyBind_ok, pyPure,
      valInTypeMapping, hs1, isStrEq, hsb]
  · have htm := dictGet?_any im "type" (.str s) him
    have hlen : ¬im.length = 0 := by
      cases im with
      | nil => simp [dictGet?] at him
      | cons p rest => simp
    have hrefs2 : hasSubChars ['$', 'r', 'e', 'f'] s.data = false := by
      have hb : hasSub "$ref" s = false := by simpa using hrefs
      exact hb
    simp [create_array_typing, pyGetMD, dictGet?, pySub, pyLen, pyIn, hlen,
      htm, him, pyBind_ok, pyPure, valInTypeMapping, hs1, isStrEq, hsb,
      hasSub, hrefs2]

/-- Witness for C7 (amended): a branch `{type: "object"}` renders as
    "unknown"; an array schema with `items: {type: "object"}` renders as
    `List[unknown]`; neither raises. -/
theorem C7_witness :
    resolveBranchStep 999 (.dict [("type", .str "object")]) false =
      .ok ("unknown", false) ∧
    create_array_typing 1000
      (.dict [("items", .dict [("type", .str "object")])]) =
      .ok (some ("List[unknown]", false)) :=
  C7_unknown_name_degrades 999 "object" [("type", .str "object")]
    [("type", .str "object")] false rfl (by decide) (by decide) rfl
    (by decide) rfl

/-- Counterexample for C5: a two-sentinel index document and a one-block
    listing whose manifest has a property with an `items` key — the per-block
    formatting raises `KeyError('items')` and the pipeline never rewrites the
    index (no file is written at all). -/
theorem C5_counterexample :
    pipeline canonicalEnum
      [AUTOGENERATED_BLOCKS_LIST_TOKEN, "old", AUTOGENERATED_BLOCKS_LIST_TOKEN]
      [badItemsBlock] = ([], some (.keyError "items")) := by
  rfl

/-- C5 (amended): when every block is processed without error, the pipeline
    rewrites the index by replacing exactly the lines strictly between the two
    sentinel lines with one card line per block in listing order, leaving the
    sentinel lines and everything outside the region unchanged. -/
theorem C5_splice_replaces_region (enum : List String → List String)
    (A B C : List String) (x y : String) (blocks : List Block)
    (ws : List FileWrite) (cards : List String)
    (hA : ∀ l ∈ A, lineHasToken l = false)
    (hB : ∀ l ∈ B, lineHasToken l = false)
    (hC : ∀ l ∈ C, lineHasToken l = false)
    (hx : lineHasToken x = true) (hy : lineHasToken y = true)
    (hrun : runBlocks enum blocks = (ws, .ok cards)) :
    pipeline enum (A ++ [x] ++ B ++ [y] ++ C) blocks =
      (ws ++ [FileWrite.index (A ++ [x] ++ cards ++ [y] ++ C)], none) ∧
    cards.length = blocks.length :=
  ⟨pipeline_splice enum A B C x y blocks ws cards hA hB hC hx hy hrun,
   runBlocks_ok_length enum blocks ws cards hrun⟩

/-- Witness for C5 (amended): one block, one line between the sentinels; the
    line is replaced by exactly one card line and the rest is unchanged. -/
theorem C5_witness :
    pipeline canonicalEnum
      ([] ++ [AUTOGENERATED_BLOCKS_LIST_TOKEN] ++ ["old"] ++
        [AUTOGENERATED_BLOCKS_LIST_TOKEN] ++ []) [fooBlock] =
      ((runBlocks canonicalEnum [fooBlock]).1 ++
        [FileWrite.index ([] ++ [AUTOGENERATED_BLOCKS_LIST_TOKEN] ++ [fooCard] ++
          [AUTOGENERATED_BLOCKS_LIST_TOKEN] ++ [])], none) ∧
    ([fooCard] : List String).length = ([fooBlock] : List Block).length := by
  have h2 : (runBlocks canonicalEnum [fooBlock]).2 = .ok [fooCard] := by rfl
  have hrun : runBlocks canonicalEnum [fooBlock] =
      ((runBlocks canonicalEnum [fooBlock]).1, .ok [fooCard]) := by
    rw [← h2]
  exact C5_splice_replaces_region canonicalEnum [] ["old"] []
    AUTOGENERATED_BLOCKS_LIST_TOKEN AUTOGENERATED_BLOCKS_LIST_TOKEN [fooBlock]
    (runBlocks canonicalEnum [fooBlock]).1 [fooCard]
    (by simp) (by decide) (by simp) (by decide) (by decide) hrun

/-- Counterexample for C6: when a block's short description contains the
    sentinel token, the first run succeeds and writes an index whose card line
    contains the token; reading that index back, the second run sees three
    token lines and aborts without producing any file, so the outputs of the
    two runs differ. -/
theorem C6_counterexample :
    pipeline canonicalEnum
      [AUTOGENERATED_BLOCKS_LIST_TOKEN, AUTOGENERATED_BLOCKS_LIST_TOKEN]
      [tokenDescBlock] =
      ((runBlocks canonicalEnum [tokenDescBlock]).1 ++
        [FileWrite.index [AUTOGENERATED_BLOCKS_LIST_TOKEN, tokenDescCard,
          AUTOGENERATED_BLOCKS_LIST_TOKEN]], none) ∧
    read_lines_from_file (fileContent [AUTOGENERATED_BLOCKS_LIST_TOKEN,
      tokenDescCard, AUTOGENERATED_BLOCKS_LIST_TOKEN]) =
      [AUTOGENERATED_BLOCKS_LIST_TOKEN, tokenDescCard,
        AUTOGENERATED_BLOCKS_LIST_TOKEN] ∧
    pipeline canonicalEnum [AUTOGENERATED_BLOCKS_LIST_TOKEN, tokenDescCard,
      AUTOGENERATED_BLOCKS_LIST_TOKEN] [tokenDescBlock] =
      ([], some (.exception SENTINEL_ERROR_MESSAGE)) ∧
    (pipeline canonicalEnum
      [AUTOGENERATED_BLOCKS_LIST_TOKEN, AUTOGENERATED_BLOCKS_LIST_TOKEN]
      [tokenDescBlock]).1 ≠ ([] : List FileWrite) := by
  refine ⟨rfl, rfl, rfl, ?_⟩
  decide

/-- C6 (amended): provided no generated card line contains the sentinel token
    or a newline, the pipeline is idempotent: the first run rewrites the index
    to `A ++ [x] ++ cards ++ [y] ++ C`, that file reads back unchanged, and a
    second run over it (same block listing) produces byte-identical per-block
    documents and the byte-identical index. -/
theorem C6_idempotent_when_cards_clean (enum : List String → List String)
    (A B C : List String) (x y : String) (blocks : List Block)
    (ws : List FileWrite) (cards : List String)
    (hA : ∀ l ∈ A, lineHasToken l = false)
    (hB : ∀ l ∈ B, lineHasToken l = false)
    (hC : ∀ l ∈ C, lineHasToken l = false)
    (hx : lineHasToken x = true) (hy : lineHasToken y = true)
    (hclean : ∀ l ∈ A ++ [x] ++ [y] ++ C, '\n' ∉ l.data ∧ pyRstrip l = l)
    (hrun : runBlocks enum blocks = (ws, .ok cards))
    (hcard_tok : ∀ c ∈ cards, lineHasToken c = false)
    (hcard_nl : ∀ c ∈ cards, '\n' ∉ c.data) :
    pipeline enum (A ++ [x] ++ B ++ [y] ++ C) blocks =
      (ws ++ [FileWrite.index (A ++ [x] ++ cards ++ [y] ++ C)], none) ∧
    read_lines_from_file (fileContent (A ++ [x] ++ cards ++ [y] ++ C)) =
      A ++ [x] ++ cards ++ [y] ++ C ∧
    pipeline enum (A ++ [x] ++ cards ++ [y] ++ C) blocks =
      (ws ++ [FileWrite.index (A ++ [x] ++ cards ++ [y] ++ C)], none) := by
  have hcard_rs : ∀ c ∈ cards, pyRstrip c = c := by
    intro c hc
    obtain ⟨s, hs⟩ := runBlocks_ok_card_shape enum blocks ws cards hrun c hc
    rw [hs]
    exact pyRstrip_card_end s
  refine ⟨pipeline_splice enum A B C x y blocks ws cards hA hB hC hx hy hrun,
    ?_, pipeline_splice enum A cards C x y blocks ws cards hA hcard_tok hC
      hx hy hrun⟩
  apply read_lines_roundtrip
  · intro l hl
    simp only [List.append_assoc, List.mem_append, List.mem_cons,
      List.not_mem_nil, or_false] at hl
    rcases hl with hl | hl | hl | hl | hl
    · exact (hclean l (by simp [hl])).1
    · exact (hclean l (by simp [hl])).1
    · exact hcard_nl l hl
    · exact (hclean l (by simp [hl])).1
    · exact (hclean l (by simp [hl])).1
  · intro l hl
    simp only [List.append_assoc, List.mem_append, List.mem_cons,
      List.not_mem_nil, or_false] at hl
    rcases hl with hl | hl | hl | hl | hl
    · exact (hclean l (by simp [hl])).2
    · exact (hclean l (by simp [hl])).2
    · exact hcard_rs l hl
    · exact (hclean l (by simp [hl])).2
    · exact (hclean l (by simp [hl])).2

/-- Witness for C6 (amended): one clean block; the second run over the index
    written by the first run yields exactly the same writes. -/
theorem C6_witness :
    pipeline canonicalEnum ([] ++ [AUTOGENERATED_BLOCKS_LIST_TOKEN] ++ ["old"] ++
      [AUTOGENERATED_BLOCKS_LIST_TOKEN] ++ []) [fooBlock] =
      ((runBlocks canonicalEnum [fooBlock]).1 ++
        [FileWrite.index ([] ++ [AUTOGENERATED_BLOCKS_LIST_TOKEN] ++ [fooCard] ++
          [AUTOGENERATED_BLOCKS_LIST_TOKEN] ++ [])], none) ∧
    read_lines_from_file (fileContent ([] ++ [AUTOGENERATED_BLOCKS_LIST_TOKEN] ++
      [fooCard] ++ [AUTOGENERATED_BLOCKS_LIST_TOKEN] ++ [])) =
      [] ++ [AUTOGENERATED_BLOCKS_LIST_TOKEN] ++ [fooCard] ++
        [AUTOGENERATED_BLOCKS_LIST_TOKEN] ++ [] ∧
    pipeline canonicalEnum ([] ++ [AUTOGENERATED_BLOCKS_LIST_TOKEN] ++ [fooCard] ++
      [AUTOGENERATED_BLOCKS_LIST_TOKEN] ++ []) [fooBlock] =
      ((runBlocks canonicalEnum [fooBlock]).1 ++
        [FileWrite.index ([] ++ [AUTOGENERATED_BLOCKS_LIST_TOKEN] ++ [fooCard] ++
          [AUTOGENERATED_BLOCKS_LIST_TOKEN] ++ [])], none) := by
  have h2 : (runBlocks canonicalEnum [fooBlock]).2 = .ok [fooCard] := by rfl
  have hrun : runBlocks canonicalEnum [fooBlock] =
      ((runBlocks canonicalEnum [fooBlock]).1, .ok [fooCard]) := by
    rw [← h2]
  exact C6_idempotent_when_cards_clean canonicalEnum [] ["old"] []
    AUTOGENERATED_BLOCKS_LIST_TOKEN AUTOGENERATED_BLOCKS_LIST_TOKEN [fooBlock]
    (runBlocks canonicalEnum [fooBlock]).1 [fooCard]
    (by simp) (by decide) (by simp) (by decide) (by decide) (by decide) hrun
    (by decide) (by decide)
